import Mathlib

set_option maxRecDepth 8192

/-!
Shallow embedding of the core of the Bitcoin dashboard (src/app.py):
the snapshot cache, the historical log, the retrying fetcher and the
signal engine.  File I/O is made explicit: each flat file is a value of
an inductive type (absent, unparsable, or parsed content), and every
function of the source that reads or writes a file takes and returns
such a value.  Wall-clock instants are integers (seconds); Python floats
on the arithmetic paths are modelled as rationals.
-/

/-- A scalar Python value appearing inside a Bitnodes node entry
(the entries of the upstream list are ints and strings). -/
inductive PVal where
  | pstr (s : String)
  | pint (n : Int)
deriving DecidableEq

/-- Python str() on a scalar value. -/
def pyStr : PVal → String
  | .pstr s => s
  | .pint n => toString n

/-- A value of the upstream nodes mapping: a list of scalars (the
well-formed case the source's isinstance check accepts) or any other
JSON value. -/
inductive NodeVal where
  | plist (xs : List PVal)
  | other
deriving DecidableEq

/-- Python substring membership on char lists: needle occurs inside hay. -/
def subList (needle : List Char) : List Char → Bool
  | [] => needle.isEmpty
  | c :: rest => List.isPrefixOf needle (c :: rest) || subList needle rest

/-- Python substring test: needle in hay. -/
def strIn (needle hay : String) : Bool := subList needle.toList hay.toList

/-- Python s.lower() (ASCII case folding, as the source applies it to
ASCII user-agent strings). -/
def pyLower (s : String) : String := String.mk (s.data.map Char.toLower)

/-- Left-to-right non-overlapping split scan on char lists, with fuel for
structural recursion (fuel at least the list length never runs out). -/
def splitGo (sep : List Char) : Nat → List Char → List Char → List (List Char)
  | _, [], acc => [acc.reverse]
  | 0, l, acc => [acc.reverse ++ l]
  | fuel + 1, c :: rest, acc =>
    if List.isPrefixOf sep (c :: rest) then
      acc.reverse :: splitGo sep fuel (List.drop (sep.length - 1) rest) []
    else splitGo sep fuel rest (c :: acc)

/-- Python s.split(sep) for a non-empty separator. -/
def pySplit (s sep : String) : List String :=
  (splitGo sep.data (s.data.length + 1) s.data []).map String.mk

/-- Python d.get(k, dflt) on a counting dict (association list,
first match wins; a Python dict has unique keys). -/
def dget (d : List (String × Nat)) (k : String) (dflt : Nat) : Nat :=
  match d with
  | [] => dflt
  | (k1, v) :: rest => if k1 = k then v else dget rest k dflt

/-- Python d[k] = d.get(k, 0) + 1: update in place if the key exists,
append it otherwise. -/
def dincr (d : List (String × Nat)) (k : String) : List (String × Nat) :=
  match d with
  | [] => [(k, 1)]
  | (k1, v) :: rest => if k1 = k then (k1, v + 1) :: rest else (k1, v) :: dincr rest k

/-- Sum of the counts of a counting dict. -/
def sumVals (d : List (String × Nat)) : Nat := (d.map Prod.snd).sum

/-- A JSON object payload (e.g. the Bitnodes response body). -/
abbrev Payload := List (String × PVal)

/-- One entry of the cache file: write instant and stored payload. -/
structure CacheEntry where
  timestamp : Int
  data : Payload
deriving DecidableEq

/-- The cache file on disk: missing, unparsable, or a parsed mapping
from cache key to entry. -/
inductive CacheFile where
  | absent
  | corrupt
  | parsed (entries : List (String × CacheEntry))
deriving DecidableEq

/-- Python cache[key] lookup (unique keys, first match). -/
def dlookup (d : List (String × CacheEntry)) (k : String) : Option CacheEntry :=
  match d with
  | [] => none
  | (k1, v) :: rest => if k1 = k then some v else dlookup rest k

/-- Python cache[key] = v: replace in place if the key exists, append
it otherwise. -/
def dupdate (d : List (String × CacheEntry)) (k : String) (v : CacheEntry) :
    List (String × CacheEntry) :=
  match d with
  | [] => [(k, v)]
  | (k1, v1) :: rest => if k1 = k then (k1, v) :: rest else (k1, v1) :: dupdate rest k v

/-- self.cache_duration = 600 (seconds). -/
def cache_duration : Int := 600

/-- get_cached_data (src/app.py lines 29-42): None when the file is
absent or unparsable or the key is missing; the stored payload when the
entry is younger than cache_duration, None otherwise. -/
def get_cached_data (file : CacheFile) (key : String) (now : Int) : Option Payload :=
  match file with
  | .absent => none
  | .corrupt => none
  | .parsed entries =>
    match dlookup entries key with
    | none => none
    | some e => if now - e.timestamp < cache_duration then some e.data else none

/-- set_cached_data (src/app.py lines 44-60): re-read the file, merge
the new entry, rewrite.  A read failure raises inside the try block and
leaves the file unchanged; writeOk models the success of the final
write (on failure the exception is swallowed and the file is kept). -/
def set_cached_data (file : CacheFile) (key : String) (data : Payload) (now : Int)
    (writeOk : Bool) : CacheFile :=
  if !writeOk then file
  else
    match file with
    | .absent => .parsed [(key, ⟨now, data⟩)]
    | .corrupt => .corrupt
    | .parsed entries => .parsed (dupdate entries key ⟨now, data⟩)

/-- Outcome of one requests.get attempt: an exception (timeout, network
error, JSON decode failure) or a response with a status code and body. -/
inductive AttemptOutcome where
  | exn
  | resp (status : Nat) (body : Payload)

/-- The retry loop of make_api_request_with_retry (src/app.py lines
62-75), by remaining attempt count.  Returns the result and the list of
sleep durations performed (time.sleep(2 ** attempt), skipped after the
final attempt). -/
def retryCount (oracle : Nat → AttemptOutcome) (attempt : Nat) :
    Nat → Option Payload × List Nat
  | 0 => (none, [])
  | remaining + 1 =>
    match oracle attempt with
    | .resp 200 body => (some body, [])
    | _ =>
      if remaining = 0 then (none, [])
      else
        let rest := retryCount oracle (attempt + 1) remaining
        (rest.1, 2 ^ attempt :: rest.2)

/-- make_api_request_with_retry (src/app.py lines 62-75), with the
network modelled as an oracle from attempt number to outcome. -/
def make_api_request_with_retry (oracle : Nat → AttemptOutcome) (max_retries : Nat) :
    Option Payload × List Nat :=
  retryCount oracle 0 max_retries

/-- Python truthiness of an optional payload (None and the empty dict
are falsy). -/
def pytruthy : Option Payload → Bool
  | none => false
  | some p => !p.isEmpty

/-- Observable outcome of get_bitnodes_data: the returned payload,
whether an upstream fetch was performed, and the cache file afterwards. -/
structure BitnodesOutcome where
  result : Option Payload
  refetched : Bool
  cache : CacheFile
deriving DecidableEq

/-- get_bitnodes_data (src/app.py lines 100-114): return the cached
payload when it is truthy, otherwise fetch (fetched is the outcome of
make_api_request_with_retry) and cache the result when it is truthy. -/
def get_bitnodes_data (file : CacheFile) (now : Int) (fetched : Option Payload)
    (writeOk : Bool) : BitnodesOutcome :=
  let cached := get_cached_data file "bitnodes" now
  if pytruthy cached then ⟨cached, false, file⟩
  else
    let file2 :=
      if pytruthy fetched then
        set_cached_data file "bitnodes" (fetched.getD []) now writeOk
      else file
    ⟨fetched, true, file2⟩

/-- The analysis dict built by analyze_nodes_distribution (src/app.py
lines 116-152). -/
structure NodeAnalysis where
  total_nodes : Nat
  node_types : List (String × Nat)
  versions : List (String × Nat)
  countries : List (String × Nat)
  user_agents : List (String × Nat)
  protocols : List (String × Nat)
deriving DecidableEq

/-- self.sample_size = 1000. -/
def sample_size : Nat := 1000

/-- str(node_data[1]), the user-agent field of a well-formed entry. -/
def nodeUA (xs : List PVal) : String := pyStr (xs.getD 1 (.pstr ""))

/-- str(node_data[0]), the field the source's IPv6 colon test reads. -/
def nodeAddrField (xs : List PVal) : String := pyStr (xs.getD 0 (.pstr ""))

/-- The Tor test of the source: tor in ua.lower() or onion in ua.lower(). -/
def isTorUA (ua : String) : Bool := strIn "tor" (pyLower ua) || strIn "onion" (pyLower ua)

/-- One iteration of the loop of analyze_nodes_distribution (src/app.py
lines 132-150): entries failing the isinstance-list / length >= 2 guard
are skipped; otherwise the user-agent tally, the node-type tally, and
(only when the user-agent contains Satoshi) the version tally are
incremented. -/
def analyzeStep (a : NodeAnalysis) (v : NodeVal) : NodeAnalysis :=
  match v with
  | .other => a
  | .plist xs =>
    if 2 ≤ xs.length then
      let ua := nodeUA xs
      let a1 := { a with user_agents := dincr a.user_agents ua }
      let ntype :=
        if isTorUA ua then "Tor"
        else if strIn ":" (nodeAddrField xs) then "IPv6"
        else "IPv4"
      let a2 := { a1 with node_types := dincr a1.node_types ntype }
      if strIn "Satoshi" ua then
        let ver :=
          if strIn "Satoshi:" ua then
            List.headD (pySplit (List.getD (pySplit ua "Satoshi:") 1 "") "/") ""
          else "Unknown"
        { a2 with versions := dincr a2.versions ver }
      else a2
    else a

/-- analyze_nodes_distribution (src/app.py lines 116-152): the empty
input returns the empty dict (modelled as none); otherwise the first
sample_size entries are folded through analyzeStep. -/
def analyze_nodes_distribution (nodes : List (String × NodeVal)) : Option NodeAnalysis :=
  if nodes.isEmpty then none
  else
    let sampled := nodes.take sample_size
    some (List.foldl (fun a e => analyzeStep a e.2) ⟨sampled.length, [], [], [], [], []⟩ sampled)

/-- Whether an entry passes the isinstance-list / length >= 2 guard. -/
def wellFormedNode : NodeVal → Bool
  | .plist xs => decide (2 ≤ xs.length)
  | .other => false

/-- The transport type the loop assigns to an entry (none when the
entry fails the well-formedness guard). -/
def nodeTypeOf : NodeVal → Option String
  | .plist xs =>
    if 2 ≤ xs.length then
      some (if isTorUA (nodeUA xs) then "Tor"
            else if strIn ":" (nodeAddrField xs) then "IPv6"
            else "IPv4")
    else none
  | .other => none

/-- The client version the loop records for an entry (none when the
entry is malformed or its user-agent does not contain Satoshi). -/
def versionOf : NodeVal → Option String
  | .plist xs =>
    if 2 ≤ xs.length then
      if strIn "Satoshi" (nodeUA xs) then
        some (if strIn "Satoshi:" (nodeUA xs) then
                List.headD
                  (pySplit (List.getD (pySplit (nodeUA xs) "Satoshi:") 1 "") "/") ""
              else "Unknown")
      else none
    else none
  | .other => none

/-- Whether calculate_tor_percentage counts an entry as Tor: the entry
must pass the guard and its lower-cased user-agent must contain tor or
onion. -/
def isTorNode : NodeVal → Bool
  | .plist xs => if 2 ≤ xs.length then isTorUA (nodeUA xs) else false
  | .other => false

/-- calculate_tor_percentage (src/app.py lines 154-171). -/
def calculate_tor_percentage (nodes : List (String × NodeVal)) : Rat :=
  if nodes.isEmpty then 0
  else
    let sampled := nodes.take sample_size
    let tor_count : Nat :=
      List.foldl (fun acc e => if isTorNode e.2 then acc + 1 else acc) 0 sampled
    let total_count := sampled.length
    if 0 < total_count then ((tor_count : Rat) / (total_count : Rat)) * 100 else 0

/-- One record of the historical log (network_data.json). -/
structure HistRecord where
  timestamp : String
  total_nodes : Nat
  active_nodes : Nat
  tor_percentage : Rat
deriving DecidableEq

/-- The history file on disk: missing, unparsable, or a parsed list. -/
inductive DataFile where
  | absent
  | corrupt
  | parsed (records : List HistRecord)
deriving DecidableEq

/-- self.max_data_points = 1008 (7 days of 10-minute intervals). -/
def max_data_points : Nat := 1008

/-- load_historical_data (src/app.py lines 173-181): the parsed list,
or the empty list when the file is absent or unparsable. -/
def load_historical_data : DataFile → List HistRecord
  | .absent => []
  | .corrupt => []
  | .parsed records => records

/-- save_historical_data (src/app.py lines 183-193): truncate to the
last max_data_points when over the cap, then overwrite the file; a
write failure is swallowed and leaves the file unchanged. -/
def save_historical_data (data : List HistRecord) (file : DataFile) (writeOk : Bool) :
    DataFile :=
  if !writeOk then file
  else .parsed (if max_data_points < data.length then
                  data.drop (data.length - max_data_points)
                else data)

/-- calculate_tor_trend (src/app.py lines 195-199). -/
def calculate_tor_trend (current_tor previous_tor : Rat) : Rat :=
  if previous_tor = 0 then 0
  else ((current_tor - previous_tor) / previous_tor) * 100

/-- The fields of a snapshot dict that calculate_network_signal reads. -/
structure Snapshot where
  total_nodes : Nat
  active_nodes : Nat
  tor_percentage : Rat
deriving DecidableEq

/-- calculate_network_signal (src/app.py lines 210-225): 0 when the
previous snapshot is absent or either total is zero, otherwise
active_ratio * node_growth. -/
def calculate_network_signal (current : Snapshot) (previous : Option Snapshot) : Rat :=
  match previous with
  | none => 0
  | some prev =>
    if prev.total_nodes = 0 ∨ current.total_nodes = 0 then 0
    else
      ((current.active_nodes : Rat) / (current.total_nodes : Rat)) *
        (((current.total_nodes : Rat) - (prev.total_nodes : Rat)) / (prev.total_nodes : Rat))

/-- get_network_signal (src/app.py lines 227-234). -/
def get_network_signal (signal_value : Rat) : String × String × String :=
  if signal_value > 1 / 100 then ("BUY", "🟢", "green")
  else if signal_value < -(1 / 100) then ("SELL", "🔴", "red")
  else ("SIDEWAYS", "🟡", "yellow")

/-- One record of the historical log as seen by the nearest-time
lookup: a timestamp in epoch seconds and the derived Tor percentage. -/
structure LogRecord where
  timestamp : Int
  tor_percentage : Rat
deriving DecidableEq

/-- Absolute distance (in seconds) between a record and a target time. -/
def recDist (r : LogRecord) (target : Int) : Nat := (r.timestamp - target).natAbs

/-- Modelled from the spec: the scan of the nearest-time lookup, absent
from src/app.py (src holds one of the repository's three dashboard
variants; this one takes previous = historical_data[-1] instead).  Keeps
the running best, replacing it only on a strict improvement, so the
first-encountered record wins ties. -/
def nearestAux (target : Int) (best : LogRecord) : List LogRecord → LogRecord
  | [] => best
  | r :: rs => nearestAux target (if recDist r target < recDist best target then r else best) rs

/-- Modelled from the spec: nearest-time lookup over the historical log
(absent from src/app.py).  Fewer than 2 records yields no previous
data; otherwise all records except the most recent are scanned for the
one minimizing the absolute timestamp distance to the target, ties
resolved first-encountered-wins in append order. -/
def nearestTimeLookup (log : List LogRecord) (target : Int) : Option LogRecord :=
  if log.length < 2 then none
  else
    match log.dropLast with
    | [] => none
    | c :: cs => some (nearestAux target c cs)

/-! ## Helper lemmas -/

theorem dlookup_dupdate (d : List (String × CacheEntry)) (k : String) (v : CacheEntry) :
    dlookup (dupdate d k v) k = some v := by
  induction d with
  | nil => simp [dupdate, dlookup]
  | cons hd rest ih =>
    obtain ⟨k1, v1⟩ := hd
    by_cases h : k1 = k
    · simp [dupdate, dlookup, h]
    · simp [dupdate, dlookup, h, ih]

/-! ## Claim theorems -/

/-- Claim C1: saving a list of records and loading it back yields the input
truncated to its most recent 1008 elements (the tail; oldest dropped first),
the stored history never exceeds 1008 records, and loading an absent or
unparsable file yields the empty sequence. -/
theorem C1_history_round_trip (data : List HistRecord) (file : DataFile) :
    load_historical_data (save_historical_data data file true) =
      data.drop (data.length - max_data_points) ∧
    (load_historical_data (save_historical_data data file true)).length ≤ max_data_points ∧
    load_historical_data DataFile.absent = [] ∧
    load_historical_data DataFile.corrupt = [] := by
  have hsave : save_historical_data data file true =
      DataFile.parsed (if max_data_points < data.length then
        data.drop (data.length - max_data_points) else data) := by
    simp only [save_historical_data, Bool.not_true, Bool.false_eq_true, if_false]
  refine ⟨?_, ?_, rfl, rfl⟩
  · rw [hsave]
    by_cases h : max_data_points < data.length
    · rw [if_pos h]; rfl
    · rw [if_neg h]
      have hz : data.length - max_data_points = 0 := by omega
      simp [load_historical_data, hz]
  · rw [hsave]
    by_cases h : max_data_points < data.length
    · rw [if_pos h]
      simp only [load_historical_data, List.length_drop]
      omega
    · rw [if_neg h]
      simp only [load_historical_data]
      omega

/-- Claim C2: calculate_tor_trend returns exactly 0 when the previous value
is 0, and 100 * (current - previous) / previous otherwise. -/
theorem C2_tor_trend (x current previous : Rat) :
    calculate_tor_trend x 0 = 0 ∧
    (previous ≠ 0 → calculate_tor_trend current previous = 100 * (current - previous) / previous) := by
  constructor
  · simp [calculate_tor_trend]
  · intro h
    simp only [calculate_tor_trend, if_neg h]
    ring

/-- Witness for C2 at concrete inputs. -/
theorem C2_tor_trend_witness :
    calculate_tor_trend 7 0 = 0 ∧ calculate_tor_trend 3 2 = 100 * (3 - 2) / 2 :=
  ⟨(C2_tor_trend 7 3 2).1, (C2_tor_trend 7 3 2).2 (by norm_num)⟩

/-- Claim C3: calculate_network_signal returns
(active_nodes / total_nodes) * ((current_total - previous_total) / previous_total),
and exactly 0 when the previous snapshot is absent or either total is zero;
on the spec scenario (10000,10000) then (10500,10500) the signal is 1/20 = 0.05
and get_network_signal labels it BUY. -/
theorem C3_network_signal (current p : Snapshot) :
    calculate_network_signal current none = 0 ∧
    (p.total_nodes = 0 ∨ current.total_nodes = 0 →
      calculate_network_signal current (some p) = 0) ∧
    (p.total_nodes ≠ 0 → current.total_nodes ≠ 0 →
      calculate_network_signal current (some p) =
        ((current.active_nodes : Rat) / (current.total_nodes : Rat)) *
          (((current.total_nodes : Rat) - (p.total_nodes : Rat)) / (p.total_nodes : Rat))) ∧
    calculate_network_signal ⟨10500, 10500, 15⟩ (some ⟨10000, 10000, 15⟩) = 1 / 20 ∧
    (get_network_signal (1 / 20)).1 = "BUY" := by
  refine ⟨rfl, ?_, ?_, ?_, ?_⟩
  · intro h
    simp only [calculate_network_signal]
    rw [if_pos h]
  · intro h1 h2
    simp only [calculate_network_signal]
    rw [if_neg (not_or.mpr ⟨h1, h2⟩)]
  · norm_num [calculate_network_signal]
  · norm_num [get_network_signal]

/-- Witness for C3 at concrete inputs. -/
theorem C3_network_signal_witness :
    calculate_network_signal ⟨10500, 10500, 15⟩ (some ⟨0, 5, 15⟩) = 0 ∧
    calculate_network_signal ⟨4, 2, 0⟩ (some ⟨2, 2, 0⟩) =
      (((⟨4, 2, 0⟩ : Snapshot).active_nodes : Rat) / ((⟨4, 2, 0⟩ : Snapshot).total_nodes : Rat)) *
        ((((⟨4, 2, 0⟩ : Snapshot).total_nodes : Rat) - ((⟨2, 2, 0⟩ : Snapshot).total_nodes : Rat)) /
          ((⟨2, 2, 0⟩ : Snapshot).total_nodes : Rat)) :=
  ⟨(C3_network_signal ⟨10500, 10500, 15⟩ ⟨0, 5, 15⟩).2.1 (Or.inl rfl),
   (C3_network_signal ⟨4, 2, 0⟩ ⟨2, 2, 0⟩).2.2.1 (by decide) (by decide)⟩

/-- Claim C4: the cache returns the stored payload exactly when the file is
parseable, the key is present, and the entry is younger than 600 seconds;
a read after a successful write returns the payload inside the TTL and None
past it; a failed write leaves the file unchanged (set never raises). -/
theorem C4_cache (file : CacheFile) (key : String) (now t : Int) (payload p : Payload) :
    (get_cached_data file key now = some p ↔
      ∃ entries e, file = CacheFile.parsed entries ∧ dlookup entries key = some e ∧
        e.data = p ∧ now - e.timestamp < cache_duration) ∧
    (file ≠ CacheFile.corrupt →
      get_cached_data (set_cached_data file key payload t true) key now =
        if now - t < cache_duration then some payload else none) ∧
    set_cached_data file key payload t false = file := by
  refine ⟨?_, ?_, ?_⟩
  · constructor
    · intro h
      cases file with
      | absent => simp [get_cached_data] at h
      | corrupt => simp [get_cached_data] at h
      | parsed entries =>
        simp only [get_cached_data] at h
        cases hl : dlookup entries key with
        | none => rw [hl] at h; simp at h
        | some e =>
          rw [hl] at h
          simp only [] at h
          by_cases htt : now - e.timestamp < cache_duration
          · rw [if_pos htt] at h
            exact ⟨entries, e, rfl, hl, by injection h, htt⟩
          · rw [if_neg htt] at h; cases h
    · rintro ⟨entries, e, rfl, hl, rfl, htt⟩
      simp [get_cached_data, hl, htt]
  · intro hfile
    cases file with
    | corrupt => exact absurd rfl hfile
    | absent => simp [set_cached_data, get_cached_data, dlookup]
    | parsed entries => simp [set_cached_data, get_cached_data, dlookup_dupdate]
  · simp [set_cached_data]

/-- Witness for C4 at concrete inputs: get right after set returns the
payload; get 700 seconds later returns None. -/
theorem C4_cache_witness :
    get_cached_data (set_cached_data CacheFile.absent "bitnodes" [("k", PVal.pint 1)] 0 true)
        "bitnodes" 0 = some [("k", PVal.pint 1)] ∧
    get_cached_data (set_cached_data CacheFile.absent "bitnodes" [("k", PVal.pint 1)] 0 true)
        "bitnodes" 700 = none := by
  have h1 := (C4_cache CacheFile.absent "bitnodes" 0 0 [("k", PVal.pint 1)] []).2.1 (by decide)
  have h2 := (C4_cache CacheFile.absent "bitnodes" 700 0 [("k", PVal.pint 1)] []).2.1 (by decide)
  rw [if_pos (by decide)] at h1
  rw [if_neg (by decide)] at h2
  exact ⟨h1, h2⟩

/-- Claim C7: on a run where all three attempts fail, the fetcher returns
None without raising, but the backoff sleeps are 2 ^ attempt = 1 and 2
seconds (the source's own comment announces 2, 4, 8 seconds); a 200
response returns its body with no sleep. -/
theorem C7_retry_behavior :
    make_api_request_with_retry (fun _ => AttemptOutcome.exn) 3 = (none, [1, 2]) ∧
    make_api_request_with_retry (fun _ => AttemptOutcome.resp 500 []) 3 = (none, [1, 2]) ∧
    make_api_request_with_retry (fun _ => AttemptOutcome.resp 200 [("p", PVal.pint 1)]) 3 =
      (some [("p", PVal.pint 1)], []) :=
  ⟨rfl, rfl, rfl⟩

theorem foldl_tor_count (l : List (String × NodeVal)) :
    ∀ n : Nat,
      List.foldl (fun acc e => if isTorNode e.2 then acc + 1 else acc) n l =
        n + (l.filter (fun e => isTorNode e.2)).length := by
  induction l with
  | nil => intro n; simp
  | cons hd tl ih =>
    intro n
    by_cases h : isTorNode hd.2
    · simp only [List.foldl_cons, List.filter_cons, h, if_pos, List.length_cons, ih]
      omega
    · simp only [List.foldl_cons, List.filter_cons, h, if_neg, ih]
      simp [h]

/-- Claim C5: calculate_tor_percentage samples the first min(len, 1000)
entries in order, counts an entry as Tor exactly when it is well-formed and
its lower-cased user-agent contains tor or onion (isTorNode), and returns
100 * tor_count / sample_size, with 0 on empty input. -/
theorem C5_tor_percentage (nodes : List (String × NodeVal)) :
    calculate_tor_percentage nodes =
      if nodes.isEmpty then 0
      else 100 * (((nodes.take sample_size).filter (fun e => isTorNode e.2)).length : Rat) /
        ((min nodes.length sample_size : Nat) : Rat) := by
  by_cases h : nodes.isEmpty
  · simp [calculate_tor_percentage, h]
  · simp only [calculate_tor_percentage, h, if_false, Bool.false_eq_true]
    rw [foldl_tor_count]
    have hlen : (nodes.take sample_size).length = min nodes.length sample_size := by
      rw [List.length_take, Nat.min_comm]
    have hpos : 0 < (nodes.take sample_size).length := by
      rw [List.length_take]
      have hne : nodes.length ≠ 0 := by
        simpa [List.isEmpty_iff_length_eq_zero] using h
      simp only [sample_size]
      omega
    rw [if_pos hpos, Nat.zero_add, hlen]
    ring

/-- Claim C10: get_bitnodes_data skips the upstream fetch exactly when the
cached value is truthy (a nonempty dict); a cached empty dict, even fresh,
behaves like a cache miss: the function fetches and returns the fetch
result. -/
theorem C10_bitnodes_truthiness (file : CacheFile) (now : Int) (fetched : Option Payload)
    (writeOk : Bool) :
    ((get_bitnodes_data file now fetched writeOk).refetched = false ↔
      ∃ p, get_cached_data file "bitnodes" now = some p ∧ p.isEmpty = false) ∧
    (∀ p, get_cached_data file "bitnodes" now = some p → p.isEmpty = true →
      (get_bitnodes_data file now fetched writeOk).result = fetched ∧
      (get_bitnodes_data file now fetched writeOk).refetched = true) ∧
    (∀ p, get_cached_data file "bitnodes" now = some p → p.isEmpty = false →
      get_bitnodes_data file now fetched writeOk = ⟨some p, false, file⟩) := by
  have hbit : get_bitnodes_data file now fetched writeOk =
      (if pytruthy (get_cached_data file "bitnodes" now) then
        ⟨get_cached_data file "bitnodes" now, false, file⟩
      else ⟨fetched, true,
        if pytruthy fetched then
          set_cached_data file "bitnodes" (fetched.getD []) now writeOk
        else file⟩) := rfl
  cases hc : get_cached_data file "bitnodes" now with
  | none =>
    rw [hc] at hbit
    have hpt : pytruthy none = false := rfl
    rw [hpt] at hbit
    simp only [Bool.false_eq_true, if_false] at hbit
    refine ⟨?_, ?_, ?_⟩
    · rw [hbit]; simp
    · intro p hp; exact Option.noConfusion hp
    · intro p hp; exact Option.noConfusion hp
  | some p0 =>
    rw [hc] at hbit
    by_cases he : p0.isEmpty
    · have hpt : pytruthy (some p0) = false := by simp [pytruthy, he]
      rw [hpt] at hbit
      simp only [Bool.false_eq_true, if_false] at hbit
      have hp0 : p0 = [] := by simpa using he
      refine ⟨?_, ?_, ?_⟩
      · rw [hbit]; subst hp0; simp
      · intro p hp hpe
        injection hp with hp
        subst hp
        rw [hbit]
        exact ⟨rfl, rfl⟩
      · intro p hp hpe
        injection hp with hp
        subst hp
        rw [hpe] at he
        exact Bool.noConfusion he
    · have he2 : p0.isEmpty = false := by simpa using he
      have hpt : pytruthy (some p0) = true := by simp [pytruthy, he2]
      rw [hpt] at hbit
      simp only [if_true] at hbit
      refine ⟨?_, ?_, ?_⟩
      · rw [hbit]
        constructor
        · intro _; exact ⟨p0, rfl, he2⟩
        · intro _; rfl
      · intro p hp hpe
        injection hp with hp
        subst hp
        rw [hpe] at he2
        exact Bool.noConfusion he2
      · intro p hp hpe
        injection hp with hp
        subst hp
        rw [hbit]

/-- Witness for C10: a fresh cache entry holding the empty dict is treated
as a miss and the fetch result is returned. -/
theorem C10_bitnodes_truthiness_witness :
    (get_bitnodes_data (CacheFile.parsed [("bitnodes", ⟨0, []⟩)]) 0
        (some [("n", PVal.pint 1)]) true).result = some [("n", PVal.pint 1)] ∧
    (get_bitnodes_data (CacheFile.parsed [("bitnodes", ⟨0, []⟩)]) 0
        (some [("n", PVal.pint 1)]) true).refetched = true :=
  (C10_bitnodes_truthiness (CacheFile.parsed [("bitnodes", ⟨0, []⟩)]) 0
    (some [("n", PVal.pint 1)]) true).2.1 [] (by decide) (by decide)

theorem dget_dincr (d : List (String × Nat)) (k j : String) :
    dget (dincr d k) j 0 = dget d j 0 + (if j = k then 1 else 0) := by
  induction d with
  | nil =>
    by_cases h : j = k
    · subst h; simp [dincr, dget]
    · have h2 : ¬ k = j := fun hh => h hh.symm
      simp [dincr, dget, h, h2]
  | cons hd rest ih =>
    obtain ⟨k1, v⟩ := hd
    by_cases h1 : k1 = k
    · subst h1
      by_cases h2 : k1 = j
      · subst h2; simp [dincr, dget]
      · have h3 : ¬ j = k1 := fun hh => h2 hh.symm
        simp [dincr, dget, h2, h3]
    · by_cases h2 : k1 = j
      · subst h2
        have h3 : ¬ k1 = k := h1
        have h4 : ¬ k = k1 := fun hh => h1 hh.symm
        simp [dincr, dget, h3, h4]
      · simp [dincr, dget, h1, h2, ih]

theorem sumVals_dincr (d : List (String × Nat)) (k : String) :
    sumVals (dincr d k) = sumVals d + 1 := by
  induction d with
  | nil => simp [dincr, sumVals]
  | cons hd rest ih =>
    obtain ⟨k1, v⟩ := hd
    by_cases h : k1 = k
    · simp [dincr, h, sumVals]
      omega
    · simp only [dincr, if_neg h, sumVals, List.map_cons, List.sum_cons] at *
      omega

theorem analyzeStep_node_types (a : NodeAnalysis) (v : NodeVal) :
    (analyzeStep a v).node_types =
      match nodeTypeOf v with
      | some t => dincr a.node_types t
      | none => a.node_types := by
  cases v with
  | other => rfl
  | plist xs =>
    by_cases h2 : 2 ≤ xs.length
    · by_cases hs : strIn "Satoshi" (nodeUA xs) <;>
        simp [analyzeStep, nodeTypeOf, h2, hs]
    · simp [analyzeStep, nodeTypeOf, h2]

theorem analyzeStep_versions (a : NodeAnalysis) (v : NodeVal) :
    (analyzeStep a v).versions =
      match versionOf v with
      | some t => dincr a.versions t
      | none => a.versions := by
  cases v with
  | other => rfl
  | plist xs =>
    by_cases h2 : 2 ≤ xs.length
    · by_cases hs : strIn "Satoshi" (nodeUA xs) <;>
        simp [analyzeStep, versionOf, h2, hs]
    · simp [analyzeStep, versionOf, h2]

theorem nodeTypeOf_isSome (v : NodeVal) : (nodeTypeOf v).isSome = wellFormedNode v := by
  cases v with
  | other => rfl
  | plist xs => by_cases h : 2 ≤ xs.length <;> simp [nodeTypeOf, wellFormedNode, h]

theorem foldl_analyze_node_types (l : List (String × NodeVal)) :
    ∀ (a : NodeAnalysis) (t : String),
      dget (List.foldl (fun a e => analyzeStep a e.2) a l).node_types t 0 =
        dget a.node_types t 0 + (l.filter (fun e => nodeTypeOf e.2 == some t)).length := by
  induction l with
  | nil => intro a t; simp
  | cons hd tl ih =>
    intro a t
    rw [List.foldl_cons, ih]
    rw [show (analyzeStep a hd.2).node_types =
          match nodeTypeOf hd.2 with
          | some t0 => dincr a.node_types t0
          | none => a.node_types from analyzeStep_node_types a hd.2]
    cases hv : nodeTypeOf hd.2 with
    | none => simp [List.filter_cons, hv]
    | some t0 =>
      rw [dget_dincr]
      by_cases ht : t = t0
      · subst ht; simp [List.filter_cons, hv]; omega
      · have hne : t0 ≠ t := fun hh => ht hh.symm
        have : (some t0 == some t) = false := by
          simp [beq_eq_false_iff_ne, hne]
        simp [List.filter_cons, hv, this, ht]

theorem foldl_analyze_sum (l : List (String × NodeVal)) :
    ∀ a : NodeAnalysis,
      sumVals (List.foldl (fun a e => analyzeStep a e.2) a l).node_types =
        sumVals a.node_types + (l.filter (fun e => wellFormedNode e.2)).length := by
  induction l with
  | nil => intro a; simp
  | cons hd tl ih =>
    intro a
    rw [List.foldl_cons, ih]
    rw [show (analyzeStep a hd.2).node_types =
          match nodeTypeOf hd.2 with
          | some t0 => dincr a.node_types t0
          | none => a.node_types from analyzeStep_node_types a hd.2]
    cases hv : nodeTypeOf hd.2 with
    | none =>
      have hwf : wellFormedNode hd.2 = false := by
        rw [← nodeTypeOf_isSome, hv]; rfl
      simp [List.filter_cons, hwf]
    | some t0 =>
      have hwf : wellFormedNode hd.2 = true := by
        rw [← nodeTypeOf_isSome, hv]; rfl
      rw [sumVals_dincr]
      simp [List.filter_cons, hwf]
      omega

theorem foldl_analyze_versions (l : List (String × NodeVal)) :
    ∀ (a : NodeAnalysis) (ver : String),
      dget (List.foldl (fun a e => analyzeStep a e.2) a l).versions ver 0 =
        dget a.versions ver 0 + (l.filter (fun e => versionOf e.2 == some ver)).length := by
  induction l with
  | nil => intro a ver; simp
  | cons hd tl ih =>
    intro a ver
    rw [List.foldl_cons, ih]
    rw [show (analyzeStep a hd.2).versions =
          match versionOf hd.2 with
          | some t0 => dincr a.versions t0
          | none => a.versions from analyzeStep_versions a hd.2]
    cases hv : versionOf hd.2 with
    | none => simp [List.filter_cons, hv]
    | some t0 =>
      rw [dget_dincr]
      by_cases ht : ver = t0
      · subst ht; simp [List.filter_cons, hv]; omega
      · have hne : t0 ≠ ver := fun hh => ht hh.symm
        have : (some t0 == some ver) = false := by
          simp [beq_eq_false_iff_ne, hne]
        simp [List.filter_cons, hv, this, ht]

theorem analyze_eq_foldl (nodes : List (String × NodeVal)) (a : NodeAnalysis)
    (h : analyze_nodes_distribution nodes = some a) :
    a = List.foldl (fun a e => analyzeStep a e.2)
          ⟨(nodes.take sample_size).length, [], [], [], [], []⟩ (nodes.take sample_size) := by
  by_cases hne : nodes.isEmpty
  · rw [analyze_nodes_distribution, if_pos hne] at h
    cases h
  · rw [analyze_nodes_distribution, if_neg hne] at h
    injection h with h
    exact h.symm

/-- Claim C6 (amended): each sampled peer that passes the well-formedness
guard (value a list of length at least 2) is assigned exactly one transport
type by the Tor-first / colon-IPv6 / else-IPv4 rule (nodeTypeOf), the
node_types counts sum to the number of well-formed sampled peers, and when
every sampled entry is well-formed that sum equals min(len(nodes), 1000).
The unamended claim fails on malformed entries, which receive no type. -/
theorem C6_node_types (nodes : List (String × NodeVal)) (a : NodeAnalysis)
    (h : analyze_nodes_distribution nodes = some a) :
    (∀ t, dget a.node_types t 0 =
      ((nodes.take sample_size).filter (fun e => nodeTypeOf e.2 == some t)).length) ∧
    sumVals a.node_types =
      ((nodes.take sample_size).filter (fun e => wellFormedNode e.2)).length ∧
    ((∀ e ∈ nodes.take sample_size, wellFormedNode e.2 = true) →
      sumVals a.node_types = min nodes.length sample_size) := by
  have ha := analyze_eq_foldl nodes a h
  subst ha
  refine ⟨?_, ?_, ?_⟩
  · intro t
    rw [foldl_analyze_node_types]
    simp [dget]
  · rw [foldl_analyze_sum]
    simp [sumVals]
  · intro hall
    rw [foldl_analyze_sum]
    simp only [sumVals, List.map_nil, List.sum_nil, Nat.zero_add]
    rw [List.filter_eq_self.mpr hall, List.length_take, Nat.min_comm]

/-- Counterexample to C6 as stated: a single malformed entry is sampled but
given no transport type, so the node_types counts sum to 0 while the sample
size min(1, 1000) is 1. -/
theorem C6_node_types_counterexample :
    Option.map (fun a => sumVals a.node_types)
      (analyze_nodes_distribution [("peer", NodeVal.other)]) = some 0 ∧
    min (List.length [("peer", NodeVal.other)]) sample_size = 1 ∧ (0 : Nat) ≠ 1 := by
  refine ⟨by decide, by decide, by decide⟩

/-- Witness for C6 at a concrete well-formed input. -/
theorem C6_node_types_witness :
    dget (⟨1, [("IPv4", 1)], [("27.0.0", 1)], [], [("/Satoshi:27.0.0/", 1)], []⟩ :
        NodeAnalysis).node_types "IPv4" 0 =
      (([(("a" : String), NodeVal.plist [PVal.pstr "addr", PVal.pstr "/Satoshi:27.0.0/"])].take
          sample_size).filter (fun e => nodeTypeOf e.2 == some "IPv4")).length ∧
    sumVals (⟨1, [("IPv4", 1)], [("27.0.0", 1)], [], [("/Satoshi:27.0.0/", 1)], []⟩ :
        NodeAnalysis).node_types =
      (([(("a" : String), NodeVal.plist [PVal.pstr "addr", PVal.pstr "/Satoshi:27.0.0/"])].take
          sample_size).filter (fun e => wellFormedNode e.2)).length ∧
    sumVals (⟨1, [("IPv4", 1)], [("27.0.0", 1)], [], [("/Satoshi:27.0.0/", 1)], []⟩ :
        NodeAnalysis).node_types =
      min (List.length [(("a" : String), NodeVal.plist [PVal.pstr "addr", PVal.pstr "/Satoshi:27.0.0/"])])
        sample_size :=
  ⟨(C6_node_types [("a", NodeVal.plist [PVal.pstr "addr", PVal.pstr "/Satoshi:27.0.0/"])]
      ⟨1, [("IPv4", 1)], [("27.0.0", 1)], [], [("/Satoshi:27.0.0/", 1)], []⟩ (by decide)).1 "IPv4",
   (C6_node_types [("a", NodeVal.plist [PVal.pstr "addr", PVal.pstr "/Satoshi:27.0.0/"])]
      ⟨1, [("IPv4", 1)], [("27.0.0", 1)], [], [("/Satoshi:27.0.0/", 1)], []⟩ (by decide)).2.1,
   (C6_node_types [("a", NodeVal.plist [PVal.pstr "addr", PVal.pstr "/Satoshi:27.0.0/"])]
      ⟨1, [("IPv4", 1)], [("27.0.0", 1)], [], [("/Satoshi:27.0.0/", 1)], []⟩ (by decide)).2.2
     (by decide)⟩

/-- Claim C9 (amended): for each sampled well-formed peer whose user-agent
contains Satoshi, the version recorded is the first slash-separated segment
of the text following the first Satoshi-colon marker (Unknown when the
user-agent contains Satoshi but not the colon form); peers whose user-agent
lacks Satoshi entirely have no version recorded at all (versionOf), so the
versions tally counts exactly the peers mapped to each version string.  The
unamended claim fails: a marker-free user-agent is not recorded as Unknown. -/
theorem C9_version_extraction (nodes : List (String × NodeVal)) (a : NodeAnalysis)
    (h : analyze_nodes_distribution nodes = some a) (ver : String) :
    dget a.versions ver 0 =
      ((nodes.take sample_size).filter (fun e => versionOf e.2 == some ver)).length := by
  have ha := analyze_eq_foldl nodes a h
  subst ha
  rw [foldl_analyze_versions]
  simp [dget]

/-- Counterexample to C9 as stated: a peer whose user-agent has no Satoshi
marker gets no version recorded (the versions dict stays empty), while the
claim says it is recorded as Unknown (count 1). -/
theorem C9_version_extraction_counterexample :
    Option.map (fun a => dget a.versions "Unknown" 0)
      (analyze_nodes_distribution
        [("a", NodeVal.plist [PVal.pint 70016, PVal.pstr "/btcwire:0.5.0/"])]) = some 0 ∧
    (0 : Nat) ≠ 1 := by
  refine ⟨by decide, by decide⟩

/-- Witness for C9 at a concrete input containing Satoshi without the colon
marker, recorded as Unknown. -/
theorem C9_version_extraction_witness :
    dget (⟨1, [("IPv4", 1)], [("Unknown", 1)], [], [("Satoshi no colon", 1)], []⟩ :
        NodeAnalysis).versions "Unknown" 0 =
      (([(("a" : String), NodeVal.plist [PVal.pstr "x", PVal.pstr "Satoshi no colon"])].take
          sample_size).filter (fun e => versionOf e.2 == some "Unknown")).length :=
  C9_version_extraction [("a", NodeVal.plist [PVal.pstr "x", PVal.pstr "Satoshi no colon"])]
    ⟨1, [("IPv4", 1)], [("Unknown", 1)], [], [("Satoshi no colon", 1)], []⟩ (by decide) "Unknown"

theorem nearestAux_spec (target : Int) (l : List LogRecord) :
    ∀ best : LogRecord,
      ∃ l₁ l₂, best :: l = l₁ ++ nearestAux target best l :: l₂ ∧
        (∀ x ∈ l₁, recDist (nearestAux target best l) target < recDist x target) ∧
        (∀ x ∈ best :: l, recDist (nearestAux target best l) target ≤ recDist x target) := by
  induction l with
  | nil =>
    intro best
    refine ⟨[], [], rfl, by simp, ?_⟩
    intro x hx
    rw [List.mem_singleton] at hx
    subst hx
    exact Nat.le_refl _
  | cons r rs ih =>
    intro best
    by_cases h : recDist r target < recDist best target
    · have hstep : nearestAux target best (r :: rs) = nearestAux target r rs := by
        simp [nearestAux, h]
      obtain ⟨l₁, l₂, hdec, hstrict, hmin⟩ := ih r
      have hres_r : recDist (nearestAux target r rs) target ≤ recDist r target :=
        hmin r (List.mem_cons_self r rs)
      refine ⟨best :: l₁, l₂, ?_, ?_, ?_⟩
      · rw [hstep, List.cons_append, ← hdec]
      · intro x hx
        rw [hstep]
        rcases List.mem_cons.mp hx with hxb | hxl
        · subst hxb; omega
        · exact hstrict x hxl
      · intro x hx
        rw [hstep]
        rcases List.mem_cons.mp hx with hxb | hxl
        · subst hxb; omega
        · exact hmin x hxl
    · have hstep : nearestAux target best (r :: rs) = nearestAux target best rs := by
        simp [nearestAux, h]
      have hbr : recDist best target ≤ recDist r target := Nat.le_of_not_lt h
      obtain ⟨l₁, l₂, hdec, hstrict, hmin⟩ := ih best
      cases l₁ with
      | nil =>
        rw [List.nil_append] at hdec
        injection hdec with hb hl
        refine ⟨[], r :: l₂, ?_, by simp, ?_⟩
        · rw [hstep, List.nil_append, ← hb, ← hl]
        · intro x hx
          rw [hstep, ← hb]
          rcases List.mem_cons.mp hx with hxb | hxl
          · subst hxb; exact Nat.le_refl _
          · rcases List.mem_cons.mp hxl with hxr | hxrs
            · subst hxr; exact hbr
            · rw [← hb] at hmin
              exact hmin x (List.mem_cons_of_mem best hxrs)
      | cons y l₁t =>
        rw [List.cons_append] at hdec
        injection hdec with hy hrs
        subst hy
        refine ⟨best :: r :: l₁t, l₂, ?_, ?_, ?_⟩
        · rw [hstep]
          conv_lhs => rw [hrs]
          simp
        · intro x hx
          rw [hstep]
          have hstrict_best : recDist (nearestAux target best rs) target < recDist best target :=
            hstrict best (List.mem_cons_self best l₁t)
          rcases List.mem_cons.mp hx with hxb | hxl
          · subst hxb; exact hstrict_best
          · rcases List.mem_cons.mp hxl with hxr | hxl1
            · subst hxr; omega
            · exact hstrict x (List.mem_cons_of_mem best hxl1)
        · intro x hx
          rw [hstep]
          have hres_best : recDist (nearestAux target best rs) target ≤ recDist best target :=
            hmin best (List.mem_cons_self best rs)
          rcases List.mem_cons.mp hx with hxb | hxl
          · subst hxb; exact hres_best
          · rcases List.mem_cons.mp hxl with hxr | hxrs
            · subst hxr; omega
            · exact hmin x (List.mem_cons_of_mem best hxrs)

/-- Claim C8 (amended, modelled from the spec): with fewer than 2 records
the lookup yields no previous data; otherwise it returns the first record
(in append order) among all but the most recent that minimizes the absolute
timestamp distance to the target.  On timestamps [T-48h, T-25h, T-23h, T-1h]
with target T-24h it returns the T-25h record: T-25h and T-23h are
equidistant from the target (1 hour each) and the first-encountered tie
rule selects T-25h, not T-23h as the unamended claim says. -/
theorem C8_nearest_lookup (log : List LogRecord) (target : Int) :
    (log.length < 2 → nearestTimeLookup log target = none) ∧
    (2 ≤ log.length →
      ∃ r l₁ l₂, nearestTimeLookup log target = some r ∧ log.dropLast = l₁ ++ r :: l₂ ∧
        (∀ x ∈ l₁, recDist r target < recDist x target) ∧
        (∀ x ∈ log.dropLast, recDist r target ≤ recDist x target)) ∧
    nearestTimeLookup [⟨-172800, 0⟩, ⟨-90000, 0⟩, ⟨-82800, 0⟩, ⟨-3600, 0⟩] (-86400) =
      some ⟨-90000, 0⟩ := by
  refine ⟨?_, ?_, by decide⟩
  · intro h
    simp [nearestTimeLookup, h]
  · intro h
    have h2 : ¬ log.length < 2 := by omega
    cases hdl : log.dropLast with
    | nil =>
      exfalso
      have := congrArg List.length hdl
      simp only [List.length_dropLast, List.length_nil] at this
      omega
    | cons c cs =>
      obtain ⟨l₁, l₂, hdec, hstrict, hmin⟩ := nearestAux_spec target cs c
      refine ⟨nearestAux target c cs, l₁, l₂, ?_, ?_, ?_, ?_⟩
      · simp [nearestTimeLookup, h2, hdl]
      · exact hdec
      · exact hstrict
      · exact hmin

/-- Counterexample to C8 as stated: on the spec scenario the lookup does
not return the T-23h record (T-25h wins the tie, being first-encountered
at the same 1-hour distance). -/
theorem C8_nearest_lookup_counterexample :
    nearestTimeLookup [⟨-172800, 0⟩, ⟨-90000, 0⟩, ⟨-82800, 0⟩, ⟨-3600, 0⟩] (-86400) ≠
      some ⟨-82800, 0⟩ := by decide

/-- Witness for C8 at concrete inputs: a 0-record log yields none, and a
2-record log yields the decomposition with the single candidate. -/
theorem C8_nearest_lookup_witness :
    nearestTimeLookup [] 0 = none ∧
    (∃ r l₁ l₂,
      nearestTimeLookup [⟨0, 0⟩, ⟨5, 0⟩] 2 = some r ∧
      (List.dropLast [⟨0, 0⟩, ⟨5, 0⟩] : List LogRecord) = l₁ ++ r :: l₂ ∧
      (∀ x ∈ l₁, recDist r 2 < recDist x 2) ∧
      (∀ x ∈ (List.dropLast [⟨0, 0⟩, ⟨5, 0⟩] : List LogRecord), recDist r 2 ≤ recDist x 2)) :=
  ⟨(C8_nearest_lookup [] 0).1 (by decide),
   (C8_nearest_lookup [⟨0, 0⟩, ⟨5, 0⟩] 2).2.1 (by decide)⟩
